import Mathlib

/-!
# Distributed UDP logging system: client `Logger` and server `LogServer`

A shallow embedding of `src/client/Logger.{h,cpp}` and `src/server/LogServer.cpp`.

* A C `char` is a `Nat` (its byte value); a C string is the list of its bytes
  without the terminating NUL, a buffer is the list of all its bytes.
* The process-wide variables of each program are the fields of a state record,
  every function is a state passing function.
* A datagram is the list of the bytes handed to `sendto` / returned by `recvfrom`.
-/

namespace UdpLog

/-! ## Bytes and C strings -/

/-- The bytes of an ASCII string literal of the source. -/
def ascii (s : String) : List Nat := s.toList.map Char.toNat

/-- Logger.h:13 and LogServer.cpp:18, `#define BUF_LEN 1024`. -/
def BUF_LEN : Nat := 1024

/-- The C string stored at the start of a byte array: the bytes before the first NUL.
(When the array holds no NUL the C code reads past its end; the embedding stops at the
end of the array.) -/
def cstr (buf : List Nat) : List Nat := buf.takeWhile (fun b => b != 0)

/-- `strlen` of the C string at the start of a byte array. -/
def strlen (buf : List Nat) : Nat := (cstr buf).length

/-- Logger.h:23-28, `enum LOG_LEVEL`. -/
inductive LOG_LEVEL where
  | DEBUG
  | WARNING
  | ERROR
  | CRITICAL
  deriving DecidableEq, Repr

namespace LOG_LEVEL

/-- The enumerator values `DEBUG = 0, WARNING = 1, ERROR = 2, CRITICAL = 3`. -/
def toInt : LOG_LEVEL → Int
  | DEBUG => 0
  | WARNING => 1
  | ERROR => 2
  | CRITICAL => 3

/-- The cast `(LOG_LEVEL)level` of Logger.cpp:49 for a value inside the enumeration;
`none` for a value that names no enumerator. -/
def ofInt (i : Int) : Option LOG_LEVEL :=
  if i = 0 then some DEBUG
  else if i = 1 then some WARNING
  else if i = 2 then some ERROR
  else if i = 3 then some CRITICAL
  else none

end LOG_LEVEL

open LOG_LEVEL

/-! ## The C library pieces the programs use -/

/-- The decimal digits of a natural number, most significant first, pushed in front of
`acc`; `fuel` bounds the number of digits. -/
def digitsAux : Nat → Nat → List Nat → List Nat
  | 0, _, acc => acc
  | fuel + 1, n, acc =>
    if n < 10 then (48 + n) :: acc
    else digitsAux fuel (n / 10) ((48 + n % 10) :: acc)

/-- Conversion `%u`-style: the decimal text of a natural number. -/
def fmtNat (n : Nat) : List Nat := digitsAux (n + 1) n []

/-- Conversion `%d`: the decimal text of an `int`, with a minus sign when negative. -/
def fmtInt (i : Int) : List Nat :=
  if i < 0 then 45 :: fmtNat i.natAbs else fmtNat i.natAbs

/-- An argument of a `printf`-family call. -/
inductive Arg where
  | str (s : List Nat)
  | int (i : Int)

/-- The text a `printf`-family call produces for a format with `%s` and `%d`
conversions (the only ones the programs use). -/
def vformat : List Nat → List Arg → List Nat
  | [], _ => []
  | 37 :: 115 :: fmt, Arg.str s :: args => s ++ vformat fmt args
  | 37 :: 100 :: fmt, Arg.int i :: args => fmtInt i ++ vformat fmt args
  | c :: fmt, args => c :: vformat fmt args

/-- Call `snprintf(buf, size, fmt, args...)`: the bytes stored at the start of `buf`
(at most `size - 1` characters of the text, then a NUL) and the return value, which is
the length of the whole text whether or not it fitted. -/
def snprintf (size : Nat) (fmt : List Nat) (args : List Arg) : List Nat × Nat :=
  let text := vformat fmt args
  (if size = 0 then [] else text.take (size - 1) ++ [0], text.length)

/-- The `isspace` characters of the C locale. -/
def isspace (c : Nat) : Bool := c == 32 || (9 ≤ c && c ≤ 13)

/-- The `isdigit` characters. -/
def isdigit (c : Nat) : Bool := 48 ≤ c && c ≤ 57

/-- The digit loop of `atoi`: accumulate the leading decimal digits. -/
def atoiDigits : List Nat → Nat → Nat
  | [], acc => acc
  | c :: cs, acc => if isdigit c then atoiDigits cs (10 * acc + (c - 48)) else acc

/-- The sign step of `atoi`: an optional `+` or `-`, then the digits. -/
def atoiSign : List Nat → Int
  | 45 :: cs => - (atoiDigits cs 0 : Int)
  | 43 :: cs => (atoiDigits cs 0 : Int)
  | cs => (atoiDigits cs 0 : Int)

/-- The number a text denotes for the `strtol` family: skip leading white space, read
an optional sign and the leading decimal digits; `0` when there are none. -/
def strtolValue : List Nat → Int
  | [] => 0
  | c :: cs => if isspace c then strtolValue cs else atoiSign (c :: cs)

/-- The result of `strtol` for a number: a 64-bit `long`, saturating at `LONG_MIN` and
`LONG_MAX`. -/
def clampLong (x : Int) : Int :=
  if x < -9223372036854775808 then -9223372036854775808
  else if x > 9223372036854775807 then 9223372036854775807
  else x

/-- The conversion of a `long` to the 32-bit `int`: the low 32 bits, two's complement. -/
def toInt32 (x : Int) : Int := (x + 2147483648) % 4294967296 - 2147483648

/-- Function `atoi`, which is `(int) strtol(nptr, NULL, 10)`: the number the text
denotes when it is representable as an `int`, and the low 32 bits of the saturated
`long` otherwise. -/
def atoi (s : List Nat) : Int := toInt32 (clampLong (strtolValue s))

/-- The value `scanf("%d", &x)` stores in the `int` variable `x` when the integer
`entered` is typed: like `atoi`, the number itself when it is representable as an `int`,
and the low 32 bits of the saturated `long` otherwise. -/
def scanf_d (entered : Int) : Int := toInt32 (clampLong entered)

/-- Function `strncmp(a, b, n) == 0`: the first `n` characters agree, the comparison
stopping early at a NUL common to both. A list that ends stands for a string that ends
(NUL). -/
def strncmpEq : List Nat → List Nat → Nat → Bool
  | _, _, 0 => true
  | a, b, n + 1 =>
    if a.headD 0 != b.headD 0 then false
    else if a.headD 0 == 0 then true
    else strncmpEq a.tail b.tail n

/-- The receive buffer after `memset(buf, 0, BUF_LEN)` and a `recvfrom(fd, buf, BUF_LEN, ...)`
that delivered `dgram`: the first `BUF_LEN` bytes of the datagram, then zeros. -/
def recvBuffer (dgram : List Nat) : List Nat :=
  dgram.take BUF_LEN ++ List.replicate (BUF_LEN - dgram.length) 0

/-- The return value of `recvfrom(fd, buf, BUF_LEN, ...)` on a non-blocking socket: the
number of bytes stored when a datagram was waiting, `-1` when none was. -/
def recvfromRet : Option (List Nat) → Int
  | none => -1
  | some dgram => (min dgram.length BUF_LEN : Nat)

/-! ## The client: `src/client/Logger.cpp` -/

/-- An effect of the client, in program order. `locked` tells whether the executing
function held `log_mutex` (a live `std::lock_guard`) when it performed the effect. -/
inductive Event where
  /-- A read of the variable `current_log_level`. -/
  | level_read (locked : Bool)
  /-- A store to the variable `current_log_level`. -/
  | level_write (value : LOG_LEVEL) (locked : Bool)
  /-- The store `buf[index] = 0` of Logger.cpp:119. -/
  | buf_store (index : Nat)
  /-- A call `sendto(sock_fd, buf, len, ...)`; `buf` holds the bytes of the array that
  the function has written. -/
  | sendto (buf : List Nat) (len : Nat) (locked : Bool)
  deriving DecidableEq, Repr

/-- The datagram a `sendto(sock_fd, buf, len, ...)` call hands to the transport: the
first `len` bytes of the array, as long as `len` does not exceed `BUF_LEN`, the size of
the array. A longer `len` reads past the array and has no defined payload. -/
def Event.datagram : Event → Option (List Nat)
  | .sendto buf len _ => if len ≤ BUF_LEN then some (buf.take len) else none
  | _ => none

/-- Whether an effect is a call of `sendto`. -/
def Event.isSend : Event → Bool
  | .sendto _ _ _ => true
  | _ => false

/-- The static variables of Logger.cpp:22-27, and the effects performed so far. -/
structure Client where
  /-- Variable `sock_fd`. -/
  sock_fd : Int
  /-- Variable `current_log_level`, initially `DEBUG`. -/
  current_log_level : LOG_LEVEL
  /-- Whether the executing function holds `log_mutex`. -/
  log_mutex : Bool
  /-- Variable `is_running`, initially `true`. -/
  is_running : Bool
  /-- Whether `recv_thread` is joinable. -/
  recv_thread : Bool
  /-- The effects performed so far, oldest first. -/
  trace : List Event
  deriving DecidableEq, Repr

/-- The state at program start (the initialisers of Logger.cpp:22-27). -/
def Client.start : Client :=
  { sock_fd := 0, current_log_level := DEBUG, log_mutex := false, is_running := true,
    recv_thread := false, trace := [] }

/-- The calls of `sendto` a client has made, oldest first. -/
def Client.sends (st : Client) : List Event := st.trace.filter Event.isSend

/-- Construction of a `std::lock_guard<std::mutex>` on `log_mutex`. -/
def Client.lock (st : Client) : Client := { st with log_mutex := true }

/-- Destruction of the `std::lock_guard` at the end of its scope. -/
def Client.unlock (st : Client) : Client := { st with log_mutex := false }

/-- A read of `current_log_level`. -/
def Client.readLevel (st : Client) : LOG_LEVEL × Client :=
  (st.current_log_level, { st with trace := st.trace ++ [Event.level_read st.log_mutex] })

/-- The assignment `current_log_level = value`. -/
def Client.writeLevel (st : Client) (value : LOG_LEVEL) : Client :=
  { st with current_log_level := value,
            trace := st.trace ++ [Event.level_write value st.log_mutex] }

/-- The literal `"Set Log Level="` of Logger.cpp:44. -/
def SET_LOG_LEVEL : List Nat := ascii "Set Log Level="

/-- One iteration of the loop of `receiveFunction` (Logger.cpp:37-55). `incoming` is
the datagram the non-blocking `recvfrom` finds, if any. -/
def receiveFunction_step (st : Client) (incoming : Option (List Nat)) : Client :=
  let buf := match incoming with
    | some dgram => recvBuffer dgram
    | none => List.replicate BUF_LEN 0
  let bytes := recvfromRet incoming
  if bytes > 0 then
    if strncmpEq buf SET_LOG_LEVEL 14 then
      let level := atoi (buf.drop 14)
      if level ≥ DEBUG.toInt ∧ level ≤ CRITICAL.toInt then
        match LOG_LEVEL.ofInt level with
        | some l => ((st.lock).writeLevel l).unlock
        | none => st
      else st
    else st
  else st

/-- Function `InitializeLog` (Logger.cpp:63-86); `socketRet` is what `socket(...)`
returns. The result is the new state and the return value. -/
def InitializeLog (st : Client) (socketRet : Int) : Client × Int :=
  let st := { st with sock_fd := socketRet }
  if socketRet < 0 then (st, -1)
  else
    let st := { st with is_running := true }
    let st := { st with recv_thread := true }
    if !st.recv_thread then (st, -1) else (st, 0)

/-- Function `SetLogLevel` (Logger.cpp:92-95). -/
def SetLogLevel (st : Client) (level : LOG_LEVEL) : Client :=
  ((st.lock).writeLevel level).unlock

/-- The table `levelStr` of Logger.cpp:115. -/
def levelStr : LOG_LEVEL → List Nat
  | DEBUG => ascii "DEBUG"
  | WARNING => ascii "WARNING"
  | ERROR => ascii "ERROR"
  | CRITICAL => ascii "CRITICAL"

/-- Function `Log` (Logger.cpp:106-125). `dt` is the string `ctime(&now)` returns. -/
def Log (st : Client) (dt : List Nat) (level : LOG_LEVEL) (prog func : List Nat)
    (line : Int) (message : List Nat) : Client :=
  let (cur, st) := st.readLevel
  if level.toInt ≥ cur.toInt then
    let r := snprintf BUF_LEN (ascii "%s %s %s:%s:%d %s")
      [Arg.str dt, Arg.str (levelStr level), Arg.str prog, Arg.str func, Arg.int line,
       Arg.str message]
    let len := r.2 + 1
    let buf := r.1.set (len - 1) 0
    let st := { st with trace := st.trace ++ [Event.buf_store (len - 1)] }
    let st := st.lock
    let st := { st with trace := st.trace ++ [Event.sendto buf len st.log_mutex] }
    st.unlock
  else st

/-- Function `ExitLog` (Logger.cpp:130-137). -/
def ExitLog (st : Client) : Client :=
  let st := { st with is_running := false }
  let st := if st.recv_thread then { st with recv_thread := false } else st
  st

/-- A call of the client interface of Logger.h. -/
inductive ClientOp where
  | InitializeLog (socketRet : Int)
  | SetLogLevel (level : LOG_LEVEL)
  | Log (dt : List Nat) (level : LOG_LEVEL) (prog func : List Nat) (line : Int)
      (message : List Nat)
  | ExitLog

/-- The state after one call of the client interface. -/
def Client.step (st : Client) : ClientOp → Client
  | .InitializeLog socketRet => (UdpLog.InitializeLog st socketRet).1
  | .SetLogLevel level => UdpLog.SetLogLevel st level
  | .Log dt level prog func line message => UdpLog.Log st dt level prog func line message
  | .ExitLog => UdpLog.ExitLog st

/-- The state after a sequence of calls of the client interface. -/
def Client.run (st : Client) (ops : List ClientOp) : Client := ops.foldl Client.step st

/-- The arguments of one call of `Log`, with the string `ctime` returned during it. -/
structure LogCall where
  dt : List Nat
  level : LOG_LEVEL
  prog : List Nat
  func : List Nat
  line : Int
  message : List Nat

/-- The state after a sequence of calls of `Log`. -/
def Client.logAll (st : Client) (calls : List LogCall) : Client :=
  calls.foldl (fun st c => Log st c.dt c.level c.prog c.func c.line c.message) st

/-- The severity names as the specification words them: the upper-case strings
`"DEBUG"`, `"WARNING"`, `"ERROR"`, `"CRITICAL"`. -/
def specName : LOG_LEVEL → List Nat
  | DEBUG => [68, 69, 66, 85, 71]
  | WARNING => [87, 65, 82, 78, 73, 78, 71]
  | ERROR => [69, 82, 82, 79, 82]
  | CRITICAL => [67, 82, 73, 84, 73, 67, 65, 76]

/-- The record text of the wire format as the specification words it:
`"<timestamp> <SEVERITY_NAME> <origin>:<function>:<line> <message>"`, that is
`ts ++ " " ++ NAME(s) ++ " " ++ prog ++ ":" ++ func ++ ":" ++ decimal(line) ++ " " ++ message`. -/
def specRecord (ts : List Nat) (s : LOG_LEVEL) (prog func : List Nat) (line : Int)
    (message : List Nat) : List Nat :=
  ts ++ ascii " " ++ specName s ++ ascii " " ++ prog ++ ascii ":" ++ func ++ ascii ":"
    ++ fmtInt line ++ ascii " " ++ message

/-- A string of the shape `ctime` returns (`"Www Mmm dd hh:mm:ss yyyy\n"`): the one for
time 0 in UTC. -/
def ctime_epoch : List Nat := ascii "Thu Jan  1 00:00:00 1970\n"

/-- Whether a call of the client interface is an `InitializeLog` whose `socket(...)`
succeeds. -/
def ClientOp.opensSocket : ClientOp → Bool
  | .InitializeLog socketRet => decide (0 ≤ socketRet)
  | _ => false

/-! ## The server: `src/server/LogServer.cpp` -/

/-- The global variables of LogServer.cpp:24-28, the log file, and what the server
has sent and printed so far. -/
structure Server where
  /-- Variable `is_running`, initially `true`. -/
  is_running : Bool
  /-- The contents of the file `server.log`. -/
  logFile : List Nat
  /-- The datagrams handed to `sendto`, oldest first. -/
  sent : List (List Nat)
  /-- The texts printed on the terminal by the selected actions, oldest first. -/
  console : List (List Nat)
  deriving DecidableEq, Repr

/-- The server at program start, with an empty log file. -/
def Server.start : Server :=
  { is_running := true, logFile := [], sent := [], console := [] }

/-- Function `shutdownHandler` (LogServer.cpp:34-39). -/
def shutdownHandler (st : Server) : Server :=
  if st.is_running then
    { st with console := st.console ++ [ascii "\nShutting down...\n"], is_running := false }
  else st

/-- One iteration of the loop of `receiveThreadFunc` (LogServer.cpp:56-68). `incoming`
is the datagram the non-blocking `recvfrom` finds, if any. -/
def receiveThreadFunc_step (st : Server) (incoming : Option (List Nat)) : Server :=
  let buffer := match incoming with
    | some dgram => recvBuffer dgram
    | none => List.replicate BUF_LEN 0
  let bytes := recvfromRet incoming - 1
  if bytes > 0 then
    { st with logFile := st.logFile ++ cstr buffer ++ [10] }
  else st

/-- The loop of `receiveThreadFunc` run over the successive results of `recvfrom`. -/
def receiveThreadFunc (st : Server) (incoming : List (Option (List Nat))) : Server :=
  incoming.foldl receiveThreadFunc_step st

/-- Function `std::getline(infile, line)`: `none` when no character can be extracted
(end of file); otherwise the characters before the next newline, and the rest of the
file after that newline. -/
def getline (infile : List Nat) : Option (List Nat × List Nat) :=
  match infile with
  | [] => none
  | _ => some (infile.takeWhile (fun c => c != 10), (infile.dropWhile (fun c => c != 10)).drop 1)

/-- The loop `while (getline(infile, line)) std::cout << line << std::endl;` of
LogServer.cpp:83-84: the lines it prints. Every successful `getline` consumes at least
one character, so `fuel` above the length of the file is never used up. -/
def dump_loop : Nat → List Nat → List (List Nat)
  | 0, _ => []
  | fuel + 1, infile =>
    match getline infile with
    | none => []
    | some (line, rest) => line :: dump_loop fuel rest

/-- The lines `dump_log` (LogServer.cpp:75-88) reads from the log file and prints. -/
def dump_lines (file : List Nat) : List (List Nat) := dump_loop (file.length + 1) file

/-- Function `dump_log` (LogServer.cpp:75-88). -/
def dump_log (st : Server) : Server :=
  { st with console := st.console ++ [ascii "\n--- Log File Content ---\n"]
      ++ (dump_lines st.logFile).map (fun l => l ++ [10])
      ++ [ascii "\nPress ENTER to continue..."] }

/-- One iteration of the menu loop of `main` from the `scanf` of the selection on
(LogServer.cpp:132-165, after the menu has been printed). `optionEntered` is the integer
typed as the selection, `levelEntered` the integer typed at the prompt of selection 1;
each is stored in an `int` by `scanf("%d", ...)`. -/
def menu_step (st : Server) (optionEntered levelEntered : Int) : Server :=
  let option := scanf_d optionEntered
  if option = 1 then
    let st := { st with console := st.console
      ++ [ascii "Enter log level (0-DEBUG, 1-WARNING, 2-ERROR, 3-CRITICAL): "] }
    let level := scanf_d levelEntered
    if level < 0 ∨ level > 3 then
      { st with console := st.console ++ [ascii "Incorrect log level !\n"] }
    else
      let buffer := (snprintf BUF_LEN (ascii "Set Log Level=%d") [Arg.int level]).1
      { st with sent := st.sent ++ [buffer.take (strlen buffer + 1)] }
  else if option = 2 then dump_log st
  else if option = 0 then { st with is_running := false }
  else { st with console := st.console ++ [ascii "Invalid selection. Try again.\n"] }

/-- What can happen to the server process: SIGINT, or a menu selection. -/
inductive ServerOp where
  | sigint
  | menu (optionEntered levelEntered : Int)

/-- The state after one such event. -/
def Server.step (st : Server) : ServerOp → Server
  | .sigint => shutdownHandler st
  | .menu optionEntered levelEntered => menu_step st optionEntered levelEntered

/-- The state after a sequence of such events. -/
def Server.run (st : Server) (ops : List ServerOp) : Server := ops.foldl Server.step st

/-! ## Files of complete lines -/

/-- The contents of a file made of the given lines, each followed by a newline. -/
def fileOfLines : List (List Nat) → List Nat
  | [] => []
  | l :: ls => l ++ 10 :: fileOfLines ls

/-! ## Filtering by severity -/

lemma Log_level (st : Client) (dt : List Nat) (level : LOG_LEVEL) (prog func : List Nat)
    (line : Int) (message : List Nat) :
    (Log st dt level prog func line message).current_log_level = st.current_log_level := by
  unfold Log Client.readLevel Client.lock Client.unlock
  dsimp only
  split <;> rfl

lemma Log_sends (st : Client) (dt : List Nat) (level : LOG_LEVEL) (prog func : List Nat)
    (line : Int) (message : List Nat) :
    (Log st dt level prog func line message).sends.length
      = st.sends.length + (if level.toInt ≥ st.current_log_level.toInt then 1 else 0) := by
  unfold Log Client.readLevel Client.lock Client.unlock Client.sends
  dsimp only
  split <;> simp [List.filter_append, Event.isSend]

lemma logAll_level (calls : List LogCall) (st : Client) :
    (st.logAll calls).current_log_level = st.current_log_level := by
  induction calls generalizing st with
  | nil => rfl
  | cons c cs ih =>
    show (Client.logAll (Log st c.dt c.level c.prog c.func c.line c.message) cs).current_log_level = _
    rw [ih, Log_level]

/-- C1: a call of `Log` with severity `s` under threshold `t` performs exactly one
`sendto` when `s >= t` and none when `s < t`; over a sequence of calls under a fixed
threshold the number of sends is the number of calls with severity at least the
threshold, e.g. two for DEBUG, ERROR, CRITICAL under WARNING. -/
theorem Log_sends_iff_at_least_threshold (st : Client) :
    (∀ (dt : List Nat) (s : LOG_LEVEL) (prog func : List Nat) (line : Int)
        (message : List Nat),
      (Log st dt s prog func line message).sends.length
        = st.sends.length + (if s.toInt ≥ st.current_log_level.toInt then 1 else 0))
    ∧ (∀ calls : List LogCall,
      (st.logAll calls).sends.length
        = st.sends.length
          + (calls.filter (fun c => decide (c.level.toInt ≥ st.current_log_level.toInt))).length)
    ∧ ∀ (dt p f m : List Nat) (l : Int),
      ((({ st with current_log_level := WARNING } : Client).logAll
          [⟨dt, DEBUG, p, f, l, m⟩, ⟨dt, ERROR, p, f, l, m⟩, ⟨dt, CRITICAL, p, f, l, m⟩]).sends.length
        = st.sends.length + 2) := by
  have hseq : ∀ (calls : List LogCall) (st : Client),
      (st.logAll calls).sends.length
        = st.sends.length
          + (calls.filter (fun c => decide (c.level.toInt ≥ st.current_log_level.toInt))).length := by
    intro calls
    induction calls with
    | nil => intro st; rfl
    | cons c cs ih =>
      intro st
      show (Client.logAll (Log st c.dt c.level c.prog c.func c.line c.message) cs).sends.length = _
      rw [ih, Log_level, Log_sends, List.filter_cons]
      by_cases h : c.level.toInt ≥ st.current_log_level.toInt
      · simp [h]; omega
      · simp [h]
  refine ⟨fun dt s prog func line message => Log_sends st dt s prog func line message,
    fun calls => hseq calls st, ?_⟩
  intro dt p f m l
  rw [hseq]
  simp [Client.sends, LOG_LEVEL.toInt]

/-! ## The record from `Log` to the log file -/

lemma digitsAux_pos (fuel n : Nat) (acc : List Nat) (h : ∀ b ∈ acc, b ≠ 0) :
    ∀ b ∈ digitsAux fuel n acc, b ≠ 0 := by
  induction fuel generalizing n acc with
  | zero => simpa [digitsAux] using h
  | succ k ih =>
    unfold digitsAux
    split
    · intro b hb
      rcases List.mem_cons.1 hb with rfl | hb
      · omega
      · exact h b hb
    · apply ih
      intro b hb
      rcases List.mem_cons.1 hb with rfl | hb
      · omega
      · exact h b hb

lemma fmtInt_pos (i : Int) : ∀ b ∈ fmtInt i, b ≠ 0 := by
  unfold fmtInt fmtNat
  split
  · intro b hb
    rcases List.mem_cons.1 hb with rfl | hb
    · decide
    · exact digitsAux_pos _ _ [] (by simp) b hb
  · exact digitsAux_pos _ _ [] (by simp)

/-- The table `levelStr` of the code holds the names of the specification. -/
lemma levelStr_specName (s : LOG_LEVEL) : levelStr s = specName s := by
  cases s <;> decide

lemma specName_pos (s : LOG_LEVEL) : ∀ b ∈ specName s, b ≠ 0 := by
  cases s <;> decide

lemma vformat_record (dt : List Nat) (s : LOG_LEVEL) (prog func : List Nat) (line : Int)
    (message : List Nat) :
    vformat (ascii "%s %s %s:%s:%d %s")
      [Arg.str dt, Arg.str (levelStr s), Arg.str prog, Arg.str func, Arg.int line,
       Arg.str message]
      = specRecord dt s prog func line message := by
  simp [ascii, vformat, specRecord, levelStr_specName]

lemma specRecord_pos (ts : List Nat) (s : LOG_LEVEL) (prog func : List Nat) (line : Int)
    (message : List Nat) (hts : ∀ b ∈ ts, b ≠ 0) (hprog : ∀ b ∈ prog, b ≠ 0)
    (hfunc : ∀ b ∈ func, b ≠ 0) (hmsg : ∀ b ∈ message, b ≠ 0) :
    ∀ b ∈ specRecord ts s prog func line message, b ≠ 0 := by
  intro b hb
  simp only [specRecord, List.mem_append] at hb
  rcases hb with ((((((((((hb | hb) | hb) | hb) | hb) | hb) | hb) | hb) | hb) | hb) | hb)
  · exact hts b hb
  · revert b; decide
  · exact specName_pos s b hb
  · revert b; decide
  · exact hprog b hb
  · revert b; decide
  · exact hfunc b hb
  · revert b; decide
  · exact fmtInt_pos line b hb
  · revert b; decide
  · exact hmsg b hb

lemma specRecord_length_pos (ts : List Nat) (s : LOG_LEVEL) (prog func : List Nat)
    (line : Int) (message : List Nat) :
    0 < (specRecord ts s prog func line message).length := by
  simp [specRecord, ascii]

lemma cstr_terminated (text rest : List Nat) (h : ∀ b ∈ text, b ≠ 0) :
    cstr (text ++ 0 :: rest) = text := by
  unfold cstr
  rw [List.takeWhile_append_of_pos (by simpa using h)]
  simp

lemma recvBuffer_terminated (text : List Nat) (hlen : text.length < BUF_LEN) :
    recvBuffer (text ++ [0])
      = text ++ 0 :: List.replicate (BUF_LEN - (text.length + 1)) 0 := by
  unfold recvBuffer
  rw [List.take_of_length_le (by simp; omega)]
  simp

/-- The server's ingestion step on a NUL-terminated record that fits the buffer. -/
lemma ingest_terminated (srv : Server) (text : List Nat) (h0 : ∀ b ∈ text, b ≠ 0)
    (hpos : 0 < text.length) (hlen : text.length < BUF_LEN) :
    (receiveThreadFunc_step srv (some (text ++ [0]))).logFile
      = srv.logFile ++ text ++ [10] := by
  have hret : recvfromRet (some (text ++ [0])) - 1 > 0 := by
    simp only [recvfromRet, List.length_append, List.length_singleton]
    rw [Nat.min_eq_left (by omega)]
    push_cast
    omega
  simp only [receiveThreadFunc_step, hret, if_true, recvBuffer_terminated text hlen,
    cstr_terminated text _ h0]

/-- The effects of a call of `Log` that passes the filter and whose text fits. -/
lemma Log_trace_fits (st : Client) (dt : List Nat) (s : LOG_LEVEL) (prog func : List Nat)
    (line : Int) (message : List Nat)
    (hs : s.toInt ≥ st.current_log_level.toInt)
    (hlen : (specRecord dt s prog func line message).length < BUF_LEN) :
    (Log st dt s prog func line message).trace
      = st.trace ++ [Event.level_read st.log_mutex,
          Event.buf_store (specRecord dt s prog func line message).length,
          Event.sendto (specRecord dt s prog func line message ++ [0])
            ((specRecord dt s prog func line message).length + 1) true] := by
  have htake : (specRecord dt s prog func line message).take (BUF_LEN - 1)
      = specRecord dt s prog func line message :=
    List.take_of_length_le (by omega)
  have hB : BUF_LEN ≠ 0 := by decide
  simp only [Log, Client.readLevel, Client.lock, Client.unlock, snprintf, vformat_record,
    hs, if_true, htake, hB, if_false, Nat.add_sub_cancel, List.append_assoc,
    List.cons_append, List.nil_append]
  congr 4
  rw [List.set_append_right _ _ (Nat.le_refl _)]
  simp

/-- C2: when the severity passes the filter and the text `T` of the record, which is
`ts ++ " " ++ NAME(s) ++ " " ++ prog ++ ":" ++ func ++ ":" ++ decimal(line) ++ " " ++ message`
with `NAME` the upper-case names `DEBUG`, `WARNING`, `ERROR`, `CRITICAL` (`specRecord`,
`specName`), is shorter than `BUF_LEN`, `Log` calls `sendto` once, with length `|T| + 1`
and payload `T` followed by one NUL, and the server's ingestion step on that datagram
appends exactly `T` and one newline to the log file. The strings are C strings: they
hold no NUL byte. -/
theorem Log_ingest_round_trip (st : Client) (srv : Server) (ts : List Nat) (s : LOG_LEVEL)
    (prog func : List Nat) (line : Int) (message : List Nat)
    (hs : s.toInt ≥ st.current_log_level.toInt)
    (hts : ∀ b ∈ ts, b ≠ 0) (hprog : ∀ b ∈ prog, b ≠ 0) (hfunc : ∀ b ∈ func, b ≠ 0)
    (hmsg : ∀ b ∈ message, b ≠ 0)
    (hlen : (specRecord ts s prog func line message).length < BUF_LEN) :
    ∃ e : Event,
      (Log st ts s prog func line message).sends = st.sends ++ [e]
      ∧ (∃ buf locked, e = Event.sendto buf ((specRecord ts s prog func line message).length + 1) locked)
      ∧ e.datagram = some (specRecord ts s prog func line message ++ [0])
      ∧ (receiveThreadFunc_step srv e.datagram).logFile
          = srv.logFile ++ specRecord ts s prog func line message ++ [10] := by
  have hdg : (Event.sendto (specRecord ts s prog func line message ++ [0])
      ((specRecord ts s prog func line message).length + 1) true).datagram
      = some (specRecord ts s prog func line message ++ [0]) := by
    have : (specRecord ts s prog func line message).length + 1 ≤ BUF_LEN := by omega
    simp only [Event.datagram, this, if_true]
    rw [List.take_of_length_le (by simp)]
  refine ⟨Event.sendto (specRecord ts s prog func line message ++ [0])
      ((specRecord ts s prog func line message).length + 1) true, ?_, ⟨_, _, rfl⟩, hdg, ?_⟩
  · simp [Client.sends, Log_trace_fits st ts s prog func line message hs hlen,
      List.filter_append, Event.isSend]
  · rw [hdg]
    exact ingest_terminated srv _ (specRecord_pos ts s prog func line message hts hprog hfunc hmsg)
      (specRecord_length_pos ts s prog func line message) hlen

/-- C2 at the specification's example: `"hello world"` at ERROR from `app.c`, `main`,
line 42 under threshold DEBUG; the persisted text ends in
`ERROR app.c:main:42 hello world` and a newline. -/
theorem Log_ingest_round_trip_witness :
    (ERROR.toInt ≥ Client.start.current_log_level.toInt
      ∧ (specRecord ctime_epoch ERROR (ascii "app.c") (ascii "main") 42
          (ascii "hello world")).length < BUF_LEN)
    ∧ specRecord ctime_epoch ERROR (ascii "app.c") (ascii "main") 42 (ascii "hello world")
        = ctime_epoch ++ ascii " ERROR app.c:main:42 hello world"
    ∧ ∃ e : Event,
      (Log Client.start ctime_epoch ERROR (ascii "app.c") (ascii "main") 42
          (ascii "hello world")).sends = Client.start.sends ++ [e]
      ∧ (∃ buf locked, e = Event.sendto buf
          ((specRecord ctime_epoch ERROR (ascii "app.c") (ascii "main") 42
            (ascii "hello world")).length + 1) locked)
      ∧ e.datagram = some (specRecord ctime_epoch ERROR (ascii "app.c") (ascii "main") 42
          (ascii "hello world") ++ [0])
      ∧ (receiveThreadFunc_step Server.start e.datagram).logFile
          = Server.start.logFile
            ++ specRecord ctime_epoch ERROR (ascii "app.c") (ascii "main") 42
                (ascii "hello world") ++ [10] :=
  ⟨⟨by decide, by decide⟩, by decide,
    Log_ingest_round_trip Client.start Server.start ctime_epoch ERROR (ascii "app.c")
      (ascii "main") 42 (ascii "hello world") (by decide) (by decide) (by decide) (by decide)
      (by decide) (by decide)⟩

/-! ## The control command from the server's menu to the client's threshold -/

/-- The bytes `sendto` is given for a level of the enumeration. -/
lemma menu_step_payload (l : LOG_LEVEL) :
    ((snprintf BUF_LEN (ascii "Set Log Level=%d") [Arg.int l.toInt]).1.take
        (strlen (snprintf BUF_LEN (ascii "Set Log Level=%d") [Arg.int l.toInt]).1 + 1))
      = ascii "Set Log Level=" ++ [48 + l.toInt.toNat, 0] := by
  cases l <;> decide

lemma menu_step_set (srv : Server) (l : LOG_LEVEL) :
    (menu_step srv 1 l.toInt).sent
      = srv.sent ++ [ascii "Set Log Level=" ++ [48 + l.toInt.toNat, 0]] := by
  have hr : ¬ (l.toInt < 0 ∨ l.toInt > 3) := by cases l <;> decide
  have h1 : scanf_d 1 = 1 := by decide
  have hl : scanf_d l.toInt = l.toInt := by cases l <;> decide
  simp only [menu_step, h1, hl, if_true, hr, if_false, menu_step_payload]

lemma receive_set (st : Client) (l : LOG_LEVEL) :
    receiveFunction_step st (some (ascii "Set Log Level=" ++ [48 + l.toInt.toNat, 0]))
      = ((st.lock).writeLevel l).unlock := by
  have h1 : recvfromRet (some (ascii "Set Log Level=" ++ [48 + l.toInt.toNat, 0])) > 0 := by
    cases l <;> decide
  have h2 : strncmpEq (recvBuffer (ascii "Set Log Level=" ++ [48 + l.toInt.toNat, 0]))
      SET_LOG_LEVEL 14 = true := by
    cases l <;> decide
  have h3 : atoi ((recvBuffer (ascii "Set Log Level=" ++ [48 + l.toInt.toNat, 0])).drop 14)
      = l.toInt := by
    cases l <;> decide
  have h4 : l.toInt ≥ DEBUG.toInt ∧ l.toInt ≤ CRITICAL.toInt := by cases l <;> decide
  have h5 : LOG_LEVEL.ofInt l.toInt = some l := by cases l <;> decide
  simp only [receiveFunction_step, h1, h2, h3, h4, h5, if_true, and_self]

lemma Log_filtered (st : Client) (dt : List Nat) (level : LOG_LEVEL) (prog func : List Nat)
    (line : Int) (message : List Nat) (h : level.toInt < st.current_log_level.toInt) :
    (Log st dt level prog func line message).sends = st.sends := by
  have h2 : ¬ level.toInt ≥ st.current_log_level.toInt := by omega
  simp [Log, Client.readLevel, h2, Client.sends, List.filter_append, Event.isSend]

lemma toInt_surj (n : Int) (h0 : 0 ≤ n) (h3 : n ≤ 3) : ∃ l : LOG_LEVEL, l.toInt = n := by
  interval_cases n
  · exact ⟨DEBUG, rfl⟩
  · exact ⟨WARNING, rfl⟩
  · exact ⟨ERROR, rfl⟩
  · exact ⟨CRITICAL, rfl⟩

/-- C3: for a level `n` in 0..3 the server's set-level sends the 16 bytes
`"Set Log Level="`, the decimal digit of `n` and a NUL; the client's control listener,
on receiving them, sets the threshold to the level with ordinal `n`, whatever it was
before; after set-level CRITICAL a following `Log(ERROR, ...)` sends nothing. -/
theorem set_level_round_trip (srv : Server) (st : Client) (n : Int) (h0 : 0 ≤ n)
    (h3 : n ≤ 3) :
    ∃ (payload : List Nat) (l : LOG_LEVEL),
      (menu_step srv 1 n).sent = srv.sent ++ [payload]
      ∧ payload = ascii "Set Log Level=" ++ [48 + n.toNat, 0]
      ∧ payload.length = 16
      ∧ l.toInt = n
      ∧ (receiveFunction_step st (some payload)).current_log_level = l
      ∧ (n = 3 → ∀ (dt prog func : List Nat) (line : Int) (message : List Nat),
          (Log (receiveFunction_step st (some payload)) dt ERROR prog func line message).sends
            = st.sends) := by
  obtain ⟨l, rfl⟩ := toInt_surj n h0 h3
  refine ⟨_, l, menu_step_set srv l, rfl, by simp [ascii], rfl, ?_, ?_⟩
  · rw [receive_set]; rfl
  · intro hl dt prog func line message
    rw [receive_set, Log_filtered]
    · simp [Client.sends, Client.unlock, Client.writeLevel, Client.lock, List.filter_append,
        Event.isSend]
    · have : l = CRITICAL := by cases l <;> simp_all [LOG_LEVEL.toInt]
      subst this
      show ERROR.toInt < CRITICAL.toInt
      decide

/-- C3 at level 3 (CRITICAL), from the start states of server and client. -/
theorem set_level_round_trip_witness :
    ((0 : Int) ≤ 3 ∧ (3 : Int) ≤ 3)
    ∧ ∃ (payload : List Nat) (l : LOG_LEVEL),
      (menu_step Server.start 1 3).sent = Server.start.sent ++ [payload]
      ∧ payload = ascii "Set Log Level=" ++ [48 + (3 : Int).toNat, 0]
      ∧ payload.length = 16
      ∧ l.toInt = 3
      ∧ (receiveFunction_step Client.start (some payload)).current_log_level = l
      ∧ ((3 : Int) = 3 → ∀ (dt prog func : List Nat) (line : Int) (message : List Nat),
          (Log (receiveFunction_step Client.start (some payload)) dt ERROR prog func line
            message).sends = Client.start.sends) :=
  ⟨by decide, set_level_round_trip Server.start Client.start 3 (by decide) (by decide)⟩

lemma scanf_d_int (x : Int) (hmin : -2147483648 ≤ x) (hmax : x ≤ 2147483647) :
    scanf_d x = x := by
  unfold scanf_d toInt32 clampLong
  rw [if_neg (by omega), if_neg (by omega)]
  omega

/-- C4 as stated fails: the integer 4294967298 entered at the set-level prompt is
outside 0..3, yet `scanf("%d")` stores its low 32 bits, 2, in the `int`, the check
passes and the control datagram `"Set Log Level=2"` is sent, with no error printed. -/
theorem menu_set_level_wraps_entered_level :
    ¬ ((0 : Int) ≤ 4294967298 ∧ (4294967298 : Int) ≤ 3)
    ∧ (menu_step Server.start 1 4294967298).sent = [ascii "Set Log Level=2\x00"]
    ∧ (menu_step Server.start 1 4294967298).console
        = [ascii "Enter log level (0-DEBUG, 1-WARNING, 2-ERROR, 3-CRITICAL): "] := by
  decide

/-- C4, amended: for every integer representable as an `int` that is entered at the
server's set-level operation, a control datagram is sent exactly when the level is in
0..3, and then nothing but the prompt is printed; for any other such level the
operation prints the prompt and `Incorrect log level !` and sends nothing. -/
theorem menu_set_level_sends_iff_valid (srv : Server) (level : Int)
    (hmin : -2147483648 ≤ level) (hmax : level ≤ 2147483647) :
    ((∃ payload, (menu_step srv 1 level).sent = srv.sent ++ [payload])
      ↔ (0 ≤ level ∧ level ≤ 3))
    ∧ (if 0 ≤ level ∧ level ≤ 3 then
        (menu_step srv 1 level).console = srv.console
          ++ [ascii "Enter log level (0-DEBUG, 1-WARNING, 2-ERROR, 3-CRITICAL): "]
       else (menu_step srv 1 level).sent = srv.sent
        ∧ (menu_step srv 1 level).console
            = srv.console
              ++ [ascii "Enter log level (0-DEBUG, 1-WARNING, 2-ERROR, 3-CRITICAL): ",
                  ascii "Incorrect log level !\n"]) := by
  have h1 : scanf_d 1 = 1 := by decide
  have hl : scanf_d level = level := scanf_d_int level hmin hmax
  by_cases h : 0 ≤ level ∧ level ≤ 3
  · have hr : ¬ (level < 0 ∨ level > 3) := by omega
    simp only [menu_step, h1, hl, if_true, hr, if_false, h, and_self, iff_true, and_true]
    exact ⟨_, rfl⟩
  · have hr : level < 0 ∨ level > 3 := by omega
    simp only [menu_step, h1, hl, if_true, hr, h, if_false, iff_false, and_true,
      List.append_assoc, List.singleton_append, true_and]
    rintro ⟨payload, hp⟩
    have := congrArg List.length hp
    simp at this

/-- C4 amended, at the levels 2 (sent) and 7 (refused) from the start state. -/
theorem menu_set_level_sends_iff_valid_witness :
    (((-2147483648 : Int) ≤ 2 ∧ (2 : Int) ≤ 2147483647)
      ∧ ((-2147483648 : Int) ≤ 7 ∧ (7 : Int) ≤ 2147483647))
    ∧ (menu_step Server.start 1 2).sent = [ascii "Set Log Level=2\x00"]
    ∧ (menu_step Server.start 1 7).sent = []
    ∧ (((∃ payload, (menu_step Server.start 1 7).sent = Server.start.sent ++ [payload])
        ↔ ((0 : Int) ≤ 7 ∧ (7 : Int) ≤ 3))
      ∧ (if (0 : Int) ≤ 7 ∧ (7 : Int) ≤ 3 then
          (menu_step Server.start 1 7).console = Server.start.console
            ++ [ascii "Enter log level (0-DEBUG, 1-WARNING, 2-ERROR, 3-CRITICAL): "]
         else (menu_step Server.start 1 7).sent = Server.start.sent
          ∧ (menu_step Server.start 1 7).console
              = Server.start.console
                ++ [ascii "Enter log level (0-DEBUG, 1-WARNING, 2-ERROR, 3-CRITICAL): ",
                    ascii "Incorrect log level !\n"])) :=
  ⟨by decide, by decide, by decide,
    menu_set_level_sends_iff_valid Server.start 7 (by decide) (by decide)⟩

/-! ## `atoi` and the decimal conversion -/

lemma digitsAux_spec (fuel : Nat) : ∀ (n : Nat) (acc : List Nat), n < fuel →
    ∃ ds : List Nat, digitsAux fuel n acc = ds ++ acc
      ∧ ds ≠ []
      ∧ (∀ b ∈ ds, isdigit b = true)
      ∧ (∀ k, n < 10 ^ (k + 1) → ds.length ≤ k + 1)
      ∧ ∀ (a : Nat) (rest : List Nat),
          atoiDigits (ds ++ rest) a = atoiDigits rest (a * 10 ^ ds.length + n) := by
  induction fuel with
  | zero => intro n acc h; omega
  | succ f ih =>
    intro n acc hn
    unfold digitsAux
    by_cases h10 : n < 10
    · refine ⟨[48 + n], by simp [h10], by simp, ?_, ?_, ?_⟩
      · intro b hb
        rw [List.mem_singleton] at hb
        subst hb
        simp [isdigit]
        omega
      · intro k _
        simp
      · intro a rest
        have hd : isdigit (48 + n) = true := by simp [isdigit]; omega
        simp only [List.singleton_append, atoiDigits, hd, if_true, List.length_singleton,
          pow_one]
        congr 1
        omega
    · obtain ⟨ds, hds, _, hdig, hlen, hval⟩ := ih (n / 10) ((48 + n % 10) :: acc) (by omega)
      refine ⟨ds ++ [48 + n % 10], by simp [h10, hds], by simp, ?_, ?_, ?_⟩
      · intro b hb
        rcases List.mem_append.1 hb with hb | hb
        · exact hdig b hb
        · rw [List.mem_singleton] at hb
          subst hb
          simp [isdigit]
          omega
      · intro k hk
        cases k with
        | zero => simp at hk; omega
        | succ k =>
          have := hlen k (by
            rw [Nat.div_lt_iff_lt_mul (by decide)]
            rw [pow_succ] at hk
            exact hk)
          simp
          omega
      · intro a rest
        have hd : isdigit (48 + n % 10) = true := by simp [isdigit]; omega
        rw [List.append_assoc, hval]
        simp only [List.singleton_append, atoiDigits, hd, if_true, List.length_append,
          List.length_singleton]
        congr 1
        rw [pow_succ]
        have := Nat.div_add_mod n 10
        have e : 48 + n % 10 - 48 = n % 10 := by omega
        rw [e]
        linarith

lemma fmtNat_spec (n : Nat) :
    fmtNat n ≠ []
      ∧ (∀ b ∈ fmtNat n, isdigit b = true)
      ∧ (∀ k, n < 10 ^ (k + 1) → (fmtNat n).length ≤ k + 1)
      ∧ ∀ (a : Nat) (rest : List Nat),
          atoiDigits (fmtNat n ++ rest) a
            = atoiDigits rest (a * 10 ^ (fmtNat n).length + n) := by
  obtain ⟨ds, hds, h1, h2, h3, h4⟩ := digitsAux_spec (n + 1) n [] (by omega)
  have : fmtNat n = ds := by simpa [fmtNat] using hds
  rw [this]
  exact ⟨h1, h2, h3, h4⟩

/-- The digit loop stops at once on a text that is empty or starts with a non-digit. -/
lemma atoiDigits_stop (rest : List Nat) (a : Nat)
    (h : ∀ c ∈ rest.head?, isdigit c = false) : atoiDigits rest a = a := by
  cases rest with
  | nil => rfl
  | cons c cs =>
    have : isdigit c = false := h c (by simp)
    simp [atoiDigits, this]

lemma atoiSign_other (c : Nat) (cs : List Nat) (h45 : c ≠ 45) (h43 : c ≠ 43) :
    atoiSign (c :: cs) = (atoiDigits (c :: cs) 0 : Int) := by
  unfold atoiSign
  split
  · rename_i heq; injection heq with e1 _; exact absurd e1 h45
  · rename_i heq; injection heq with e1 _; exact absurd e1 h43
  · rfl

lemma atoiSign_digit (c : Nat) (cs : List Nat) (h : isdigit c = true) :
    atoiSign (c :: cs) = (atoiDigits (c :: cs) 0 : Int) :=
  atoiSign_other c cs (by rintro rfl; simp [isdigit] at h) (by rintro rfl; simp [isdigit] at h)

lemma strtolValue_cons (c : Nat) (cs : List Nat) :
    strtolValue (c :: cs) = if isspace c then strtolValue cs else atoiSign (c :: cs) := rfl

lemma atoiSign_minus (cs : List Nat) : atoiSign (45 :: cs) = - (atoiDigits cs 0 : Int) := rfl

lemma atoiSign_plus (cs : List Nat) : atoiSign (43 :: cs) = (atoiDigits cs 0 : Int) := rfl

/-- The `strtol` reading gives back what `%d` printed, when the text is followed by nothing or by a
non-digit. -/
lemma strtolValue_fmtInt (i : Int) (rest : List Nat)
    (h : ∀ c ∈ rest.head?, isdigit c = false) : strtolValue (fmtInt i ++ rest) = i := by
  obtain ⟨hne, hdig, _, hval⟩ := fmtNat_spec i.natAbs
  have hparse : atoiDigits (fmtNat i.natAbs ++ rest) 0 = i.natAbs := by
    rw [hval, atoiDigits_stop rest _ h]
    simp
  unfold fmtInt
  split
  · rename_i hneg
    have hsp : isspace 45 = false := by decide
    rw [List.cons_append, strtolValue_cons, hsp, atoiSign_minus, hparse]
    simp only [Bool.false_eq_true, if_false]
    omega
  · rename_i hpos
    obtain ⟨c, cs, hc⟩ := List.exists_cons_of_ne_nil hne
    have hcd : isdigit c = true := hdig c (by rw [hc]; simp)
    have hsp : isspace c = false := by
      simp [isdigit] at hcd
      simp [isspace]
      omega
    rw [hc] at hparse
    rw [hc, List.cons_append, strtolValue_cons, hsp, atoiSign_digit c _ hcd, ← List.cons_append,
      hparse]
    simp only [Bool.false_eq_true, if_false]
    omega

lemma atoiDigits_cons (c : Nat) (cs : List Nat) (a : Nat) :
    atoiDigits (c :: cs) a
      = if isdigit c then atoiDigits cs (10 * a + (c - 48)) else a := rfl

lemma atoiDigits_append_zero (cs z : List Nat) (a : Nat) :
    atoiDigits (cs ++ 0 :: z) a = atoiDigits cs a := by
  induction cs generalizing a with
  | nil => simp [atoiDigits, isdigit]
  | cons c cs ih =>
    rw [List.cons_append, atoiDigits_cons, atoiDigits_cons, ih]

lemma atoiSign_append_zero (cs z : List Nat) :
    atoiSign (cs ++ 0 :: z) = atoiSign cs := by
  cases cs with
  | nil => simp [atoiSign, atoiDigits, isdigit]
  | cons c cs =>
    by_cases h45 : c = 45
    · subst h45
      rw [List.cons_append, atoiSign_minus, atoiSign_minus, atoiDigits_append_zero]
    · by_cases h43 : c = 43
      · subst h43
        rw [List.cons_append, atoiSign_plus, atoiSign_plus, atoiDigits_append_zero]
      · rw [List.cons_append, atoiSign_other c _ h45 h43, atoiSign_other c _ h45 h43,
          ← List.cons_append, atoiDigits_append_zero]

/-- The zeros that follow a received text in the buffer do not change the number
read. -/
lemma strtolValue_append_zero (cs z : List Nat) : strtolValue (cs ++ 0 :: z) = strtolValue cs := by
  induction cs with
  | nil =>
    have hsp : isspace 0 = false := by decide
    rw [List.nil_append, strtolValue_cons, hsp]
    simp [atoiSign, atoiDigits, isdigit, strtolValue]
  | cons c cs ih =>
    rw [List.cons_append, strtolValue_cons, strtolValue_cons, ih, ← List.cons_append, atoiSign_append_zero]

lemma toInt32_clampLong (x : Int) (hmin : -2147483648 ≤ x) (hmax : x ≤ 2147483647) :
    toInt32 (clampLong x) = x := by
  unfold toInt32 clampLong
  rw [if_neg (by omega), if_neg (by omega)]
  omega

/-- The zeros that follow a received text in the buffer do not change what `atoi`
returns. -/
lemma atoi_append_zero (cs z : List Nat) : atoi (cs ++ 0 :: z) = atoi cs := by
  unfold atoi
  rw [strtolValue_append_zero]

/-- `atoi` reads back what `%d` printed for an `int`, when the text is followed by
nothing or by a non-digit. -/
lemma atoi_fmtInt (i : Int) (hmin : -2147483648 ≤ i) (hmax : i ≤ 2147483647)
    (rest : List Nat) (h : ∀ c ∈ rest.head?, isdigit c = false) :
    atoi (fmtInt i ++ rest) = i := by
  unfold atoi
  rw [strtolValue_fmtInt i rest h]
  exact toInt32_clampLong i hmin hmax

/-! ## The control listener on arbitrary payloads -/

lemma strncmpEq_iff (p : List Nat) (hp : ∀ b ∈ p, b ≠ 0) (a : List Nat) :
    strncmpEq a p p.length = true ↔ p <+: a := by
  induction p generalizing a with
  | nil => simp [strncmpEq]
  | cons x xs ih =>
    have hx : x ≠ 0 := hp x (by simp)
    have hxs : ∀ b ∈ xs, b ≠ 0 := fun b hb => hp b (by simp [hb])
    cases a with
    | nil =>
      simp [strncmpEq, hx, Ne.symm hx]
    | cons y ys =>
      by_cases hyx : y = x
      · subst hyx
        simp [strncmpEq, hx, ih hxs ys, List.cons_prefix_cons]
      · simp [strncmpEq, hyx, List.cons_prefix_cons]
        intro e
        exact absurd e.symm hyx

lemma SET_LOG_LEVEL_pos : ∀ b ∈ SET_LOG_LEVEL, b ≠ 0 := by decide

lemma SET_LOG_LEVEL_length : SET_LOG_LEVEL.length = 14 := by decide

lemma strncmpEq_SET (a : List Nat) : strncmpEq a SET_LOG_LEVEL 14 = true ↔ SET_LOG_LEVEL <+: a := by
  rw [← SET_LOG_LEVEL_length]
  exact strncmpEq_iff SET_LOG_LEVEL SET_LOG_LEVEL_pos a

/-- The control listener on a payload that starts with the command text and is shorter
than the buffer: the threshold becomes `atoi` of the rest when that is in 0..3. -/
lemma receive_command (st : Client) (rest : List Nat)
    (hlen : (SET_LOG_LEVEL ++ rest).length < BUF_LEN) :
    receiveFunction_step st (some (SET_LOG_LEVEL ++ rest))
      = if 0 ≤ atoi rest ∧ atoi rest ≤ 3 then
          match LOG_LEVEL.ofInt (atoi rest) with
          | some l => ((st.lock).writeLevel l).unlock
          | none => st
        else st := by
  have hk : BUF_LEN - (SET_LOG_LEVEL ++ rest).length
      = (BUF_LEN - (SET_LOG_LEVEL ++ rest).length - 1) + 1 := by omega
  have hbuf : recvBuffer (SET_LOG_LEVEL ++ rest)
      = SET_LOG_LEVEL ++ (rest ++ 0 :: List.replicate (BUF_LEN - (SET_LOG_LEVEL ++ rest).length - 1) 0) := by
    unfold recvBuffer
    rw [List.take_of_length_le (by omega), hk, List.replicate_succ, List.append_assoc]
    rfl
  have hret : recvfromRet (some (SET_LOG_LEVEL ++ rest)) > 0 := by
    simp only [recvfromRet]
    rw [Nat.min_eq_left (by omega)]
    simp [SET_LOG_LEVEL_length]
    omega
  have hcmp : strncmpEq (recvBuffer (SET_LOG_LEVEL ++ rest)) SET_LOG_LEVEL 14 = true := by
    rw [strncmpEq_SET, hbuf]
    exact List.prefix_append _ _
  have hdrop : (recvBuffer (SET_LOG_LEVEL ++ rest)).drop 14
      = rest ++ 0 :: List.replicate (BUF_LEN - (SET_LOG_LEVEL ++ rest).length - 1) 0 := by
    rw [hbuf]
    exact List.drop_left' SET_LOG_LEVEL_length
  simp only [receiveFunction_step, hret, hcmp, hdrop, atoi_append_zero, if_true,
    LOG_LEVEL.toInt, ge_iff_le]

lemma fmtInt_length (n : Int) (hmin : -2147483648 ≤ n) (hmax : n ≤ 2147483647) :
    (fmtInt n).length ≤ 11 := by
  obtain ⟨_, _, hlen, _⟩ := fmtNat_spec n.natAbs
  have h := hlen 9 (by norm_num; omega)
  unfold fmtInt
  split
  · simp only [List.length_cons]; omega
  · omega

/-- C5: for every `int` value `n` outside 0..3, negative ones included, and every state
of the client, the control listener leaves the state, and so the threshold, as it was
when it receives `"Set Log Level=<n>"`, with or without the terminating NUL. -/
theorem receive_out_of_range_unchanged (st : Client) (n : Int)
    (hmin : -2147483648 ≤ n) (hmax : n ≤ 2147483647) (hout : n < 0 ∨ 3 < n) :
    (receiveFunction_step st (some (ascii "Set Log Level=" ++ fmtInt n))).current_log_level
        = st.current_log_level
    ∧ (receiveFunction_step st
        (some (ascii "Set Log Level=" ++ fmtInt n ++ [0]))).current_log_level
        = st.current_log_level
    ∧ receiveFunction_step st (some (ascii "Set Log Level=" ++ fmtInt n)) = st
    ∧ receiveFunction_step st (some (ascii "Set Log Level=" ++ fmtInt n ++ [0])) = st := by
  have hl := fmtInt_length n hmin hmax
  have hrange : ¬ (0 ≤ n ∧ n ≤ 3) := by omega
  have h1 : receiveFunction_step st (some (ascii "Set Log Level=" ++ fmtInt n)) = st := by
    have := receive_command st (fmtInt n) (by
      simp only [List.length_append, SET_LOG_LEVEL_length, BUF_LEN]; omega)
    have ha : atoi (fmtInt n) = n := by
      simpa using atoi_fmtInt n hmin hmax [] (by simp)
    rw [ha, if_neg hrange] at this
    exact this
  have h2 : receiveFunction_step st (some (ascii "Set Log Level=" ++ fmtInt n ++ [0])) = st := by
    have := receive_command st (fmtInt n ++ [0]) (by
      simp only [List.length_append, SET_LOG_LEVEL_length, BUF_LEN, List.length_singleton]
      omega)
    have ha : atoi (fmtInt n ++ [0]) = n := atoi_fmtInt n hmin hmax [0] (by simp [isdigit])
    rw [ha, if_neg hrange, ← List.append_assoc] at this
    exact this
  exact ⟨by rw [h1], by rw [h2], h1, h2⟩

/-- C5 at the specification's example `"Set Log Level=9"`, with threshold ERROR. -/
theorem receive_out_of_range_unchanged_witness :
    ((-2147483648 : Int) ≤ 9 ∧ (9 : Int) ≤ 2147483647 ∧ ((9 : Int) < 0 ∨ (3 : Int) < 9))
    ∧ ascii "Set Log Level=" ++ fmtInt 9 = ascii "Set Log Level=9"
    ∧ (receiveFunction_step (SetLogLevel Client.start ERROR)
        (some (ascii "Set Log Level=" ++ fmtInt 9))).current_log_level
        = (SetLogLevel Client.start ERROR).current_log_level
    ∧ (receiveFunction_step (SetLogLevel Client.start ERROR)
        (some (ascii "Set Log Level=" ++ fmtInt 9 ++ [0]))).current_log_level
        = (SetLogLevel Client.start ERROR).current_log_level
    ∧ receiveFunction_step (SetLogLevel Client.start ERROR)
        (some (ascii "Set Log Level=" ++ fmtInt 9)) = SetLogLevel Client.start ERROR
    ∧ receiveFunction_step (SetLogLevel Client.start ERROR)
        (some (ascii "Set Log Level=" ++ fmtInt 9 ++ [0])) = SetLogLevel Client.start ERROR :=
  ⟨by decide, by decide,
    receive_out_of_range_unchanged (SetLogLevel Client.start ERROR) 9 (by decide) (by decide)
      (by decide)⟩

/-- The effects of every call of `Log` that passes the filter: the store of line 119
goes to index `|T|` and `sendto` is given the length `|T| + 1`, where `T` is the whole
formatted text, however long. -/
lemma Log_trace (st : Client) (dt : List Nat) (s : LOG_LEVEL) (prog func : List Nat)
    (line : Int) (message : List Nat)
    (hs : s.toInt ≥ st.current_log_level.toInt) :
    (Log st dt s prog func line message).trace
      = st.trace ++ [Event.level_read st.log_mutex,
          Event.buf_store (specRecord dt s prog func line message).length,
          Event.sendto
            (((specRecord dt s prog func line message).take (BUF_LEN - 1) ++ [0]).set
              (specRecord dt s prog func line message).length 0)
            ((specRecord dt s prog func line message).length + 1) true] := by
  have hB : BUF_LEN ≠ 0 := by decide
  simp only [Log, Client.readLevel, Client.lock, Client.unlock, snprintf, vformat_record,
    hs, if_true, hB, if_false, Nat.add_sub_cancel, List.append_assoc,
    List.cons_append, List.nil_append]

set_option maxRecDepth 100000 in
lemma record_of_BUF_LEN_bytes :
    (specRecord ctime_epoch ERROR (ascii "app.c") (ascii "main") 42
      (List.replicate 978 65)).length = BUF_LEN := by
  decide

set_option maxRecDepth 100000 in
lemma record_below_BUF_LEN :
    (specRecord ctime_epoch ERROR (ascii "app.c") (ascii "main") 42
      (List.replicate 977 65)).length = BUF_LEN - 1 := by
  decide

set_option maxRecDepth 100000 in
lemma record_above_BUF_LEN :
    (specRecord ctime_epoch ERROR (ascii "app.c") (ascii "main") 42
      (List.replicate 1000 65)).length = BUF_LEN + 22 := by
  decide

/-- C7 fails on the code. A call whose formatted record is `BUF_LEN - 1` bytes long
(977 letters `A` as the message) is still handled inside the buffer: the NUL goes to
index `BUF_LEN - 1` and `BUF_LEN` bytes are sent. A call whose record is exactly
`BUF_LEN` bytes long (978 letters) stores the terminating NUL at index `BUF_LEN`, one
past the last element of `buf`, and passes the length `BUF_LEN + 1` to `sendto`, which
has no payload inside the array; with 1000 letters the index is `BUF_LEN + 22` and the
length `BUF_LEN + 23`. -/
theorem Log_terminator_past_buffer :
    (∃ buf : List Nat,
      (Log Client.start ctime_epoch ERROR (ascii "app.c") (ascii "main") 42
          (List.replicate 977 65)).trace
        = [Event.level_read false, Event.buf_store (BUF_LEN - 1),
            Event.sendto buf BUF_LEN true]
      ∧ BUF_LEN - 1 < BUF_LEN)
    ∧ (∃ buf : List Nat,
      (Log Client.start ctime_epoch ERROR (ascii "app.c") (ascii "main") 42
          (List.replicate 978 65)).trace
        = [Event.level_read false, Event.buf_store BUF_LEN,
            Event.sendto buf (BUF_LEN + 1) true]
      ∧ ¬ (BUF_LEN < BUF_LEN)
      ∧ ¬ (BUF_LEN + 1 ≤ BUF_LEN)
      ∧ (Event.sendto buf (BUF_LEN + 1) true).datagram = none)
    ∧ (∃ buf : List Nat,
      (Log Client.start ctime_epoch ERROR (ascii "app.c") (ascii "main") 42
          (List.replicate 1000 65)).trace
        = [Event.level_read false, Event.buf_store (BUF_LEN + 22),
            Event.sendto buf (BUF_LEN + 23) true]
      ∧ ¬ (BUF_LEN + 22 < BUF_LEN)
      ∧ ¬ (BUF_LEN + 23 ≤ BUF_LEN)
      ∧ (Event.sendto buf (BUF_LEN + 23) true).datagram = none) := by
  refine ⟨⟨(((specRecord ctime_epoch ERROR (ascii "app.c") (ascii "main") 42
      (List.replicate 977 65)).take (BUF_LEN - 1) ++ [0]).set (BUF_LEN - 1) 0), ?_,
      by decide⟩,
    ⟨(((specRecord ctime_epoch ERROR (ascii "app.c") (ascii "main") 42
      (List.replicate 978 65)).take (BUF_LEN - 1) ++ [0]).set BUF_LEN 0),
      ?_, by decide, by decide, by simp [Event.datagram]⟩,
    ⟨(((specRecord ctime_epoch ERROR (ascii "app.c") (ascii "main") 42
      (List.replicate 1000 65)).take (BUF_LEN - 1) ++ [0]).set (BUF_LEN + 22) 0),
      ?_, by decide, by decide, by simp [Event.datagram]⟩⟩
  · rw [Log_trace _ _ _ _ _ _ _ (by decide), record_below_BUF_LEN]
    rfl
  · rw [Log_trace _ _ _ _ _ _ _ (by decide), record_of_BUF_LEN_bytes]
    rfl
  · rw [Log_trace _ _ _ _ _ _ _ (by decide), record_above_BUF_LEN]
    rfl

/-! ## The log file and its dump -/

lemma fileOfLines_append (ls : List (List Nat)) (t : List Nat) :
    fileOfLines (ls ++ [t]) = fileOfLines ls ++ t ++ [10] := by
  induction ls with
  | nil => simp [fileOfLines]
  | cons l ls ih => simp [fileOfLines, ih]

lemma getline_line (l rest : List Nat) (hl : ∀ b ∈ l, b ≠ 10) :
    getline (l ++ 10 :: rest) = some (l, rest) := by
  have h1 : (l ++ 10 :: rest).takeWhile (fun c => c != 10) = l := by
    rw [List.takeWhile_append_of_pos (by simpa using hl)]
    simp
  have h2 : (l ++ 10 :: rest).dropWhile (fun c => c != 10) = 10 :: rest := by
    rw [List.dropWhile_append_of_pos (by simpa using hl)]
    simp
  cases l with
  | nil => simp [getline]
  | cons c cs =>
    simp only [List.cons_append] at h1 h2 ⊢
    simp only [getline, h1, h2, List.drop_succ_cons, List.drop_zero]

/-- The dump loop on a file of complete lines returns the lines, with any fuel above the
length of the file. -/
lemma dump_loop_fileOfLines (ls : List (List Nat)) (hls : ∀ l ∈ ls, ∀ b ∈ l, b ≠ 10) :
    ∀ fuel, (fileOfLines ls).length < fuel → dump_loop fuel (fileOfLines ls) = ls := by
  induction ls with
  | nil =>
    intro fuel _
    cases fuel <;> simp [dump_loop, fileOfLines, getline]
  | cons l ls ih =>
    intro fuel hfuel
    cases fuel with
    | zero => omega
    | succ f =>
      have hl : ∀ b ∈ l, b ≠ 10 := hls l (by simp)
      have hrest : ∀ l2 ∈ ls, ∀ b ∈ l2, b ≠ 10 := fun l2 h2 => hls l2 (by simp [h2])
      simp only [fileOfLines, List.length_append, List.length_cons] at hfuel
      simp only [fileOfLines, dump_loop, getline_line l _ hl]
      rw [ih hrest f (by omega)]

/-- The ingestion loop appends one line per NUL-terminated, non-empty record that fits
the buffer, the idle polls appending nothing. -/
lemma receiveThreadFunc_lines (incoming : List (Option (List Nat))) :
    ∀ (texts done : List (List Nat)) (srv : Server),
      incoming.reduceOption = texts.map (fun t => t ++ [0]) →
      (∀ t ∈ texts, t ≠ [] ∧ t.length < BUF_LEN ∧ ∀ b ∈ t, b ≠ 0 ∧ b ≠ 10) →
      srv.logFile = fileOfLines done →
      (receiveThreadFunc srv incoming).logFile = fileOfLines (done ++ texts) := by
  induction incoming with
  | nil =>
    intro texts done srv hin _ hsrv
    have : texts = [] := by simpa [List.reduceOption] using hin.symm
    subst this
    simpa [receiveThreadFunc] using hsrv
  | cons o os ih =>
    intro texts done srv hin htext hsrv
    cases o with
    | none =>
      rw [List.reduceOption_cons_of_none] at hin
      have hstep : receiveThreadFunc_step srv none = srv := by
        simp [receiveThreadFunc_step, recvfromRet]
      show (receiveThreadFunc (receiveThreadFunc_step srv none) os).logFile = _
      rw [hstep]
      exact ih texts done srv hin htext hsrv
    | some d =>
      rw [List.reduceOption_cons_of_some] at hin
      cases texts with
      | nil => simp at hin
      | cons t ts =>
        simp only [List.map_cons, List.cons.injEq] at hin
        obtain ⟨hd, hrest⟩ := hin
        subst hd
        obtain ⟨hne, hlen, hbytes⟩ := htext t (by simp)
        have hstep : (receiveThreadFunc_step srv (some (t ++ [0]))).logFile
            = fileOfLines (done ++ [t]) := by
          rw [ingest_terminated srv t (fun b hb => (hbytes b hb).1)
            (List.length_pos.2 hne) hlen, hsrv, fileOfLines_append]
        show (receiveThreadFunc (receiveThreadFunc_step srv (some (t ++ [0]))) os).logFile = _
        rw [ih ts (done ++ [t]) _ hrest (fun t2 h2 => htext t2 (by simp [h2])) hstep]
        simp

/-- The server's side alone keeps one line per record: for every sequence of polls of
the ingestion loop, starting from an empty log file, in which the datagrams found are
NUL-terminated records whose text is non-empty, shorter than `BUF_LEN` and holds no NUL
and no newline byte, the dump yields exactly the texts of the records, one line each,
in the order they were received. -/
lemma dump_lines_of_newline_free_records (incoming : List (Option (List Nat)))
    (texts : List (List Nat))
    (hin : incoming.reduceOption = texts.map (fun t => t ++ [0]))
    (htext : ∀ t ∈ texts, t ≠ [] ∧ t.length < BUF_LEN ∧ ∀ b ∈ t, b ≠ 0 ∧ b ≠ 10) :
    dump_lines (receiveThreadFunc Server.start incoming).logFile = texts := by
  have hfile := receiveThreadFunc_lines incoming texts [] Server.start hin htext rfl
  rw [List.nil_append] at hfile
  unfold dump_lines
  rw [hfile]
  exact dump_loop_fileOfLines texts (fun l hl b hb => ((htext l hl).2.2 b hb).2) _
    (Nat.lt_succ_self _)

/-- C8 fails on the code: the record `Log` produces starts with the string of `ctime`,
which ends in a newline that `Log` does not strip (Logger.cpp:111,118), so the one
record the server ingests here comes back from the dump as two lines, neither of which
is the text received. -/
theorem dump_splits_ctime_record :
    (Log Client.start ctime_epoch ERROR (ascii "app.c") (ascii "main") 42
        (ascii "hello world")).sends.map Event.datagram
      = [some (ascii "Thu Jan  1 00:00:00 1970\n ERROR app.c:main:42 hello world\x00")]
    ∧ dump_lines (receiveThreadFunc Server.start
        [some (ascii "Thu Jan  1 00:00:00 1970\n ERROR app.c:main:42 hello world\x00")]).logFile
      = [ascii "Thu Jan  1 00:00:00 1970", ascii " ERROR app.c:main:42 hello world"]
    ∧ (dump_lines (receiveThreadFunc Server.start
        [some (ascii "Thu Jan  1 00:00:00 1970\n ERROR app.c:main:42 hello world\x00")]).logFile).length
      ≠ 1 := by
  decide

/-! ## The run flag -/

lemma server_step_stays_stopped (srv : Server) (op : ServerOp) (h : srv.is_running = false) :
    (srv.step op).is_running = false := by
  cases op with
  | sigint => simp [Server.step, shutdownHandler, h]
  | menu option level =>
    simp only [Server.step, menu_step, dump_log]
    split_ifs <;> first | exact h | rfl

lemma server_run_stays_stopped (ops : List ServerOp) (srv : Server)
    (h : srv.is_running = false) : (srv.run ops).is_running = false := by
  induction ops generalizing srv with
  | nil => exact h
  | cons op ops ih => exact ih (srv.step op) (server_step_stays_stopped srv op h)

lemma Log_is_running (st : Client) (dt : List Nat) (level : LOG_LEVEL) (prog func : List Nat)
    (line : Int) (message : List Nat) :
    (Log st dt level prog func line message).is_running = st.is_running := by
  unfold Log Client.readLevel Client.lock Client.unlock
  dsimp only
  split <;> rfl

lemma client_step_stays_stopped (cl : Client) (op : ClientOp) (h : cl.is_running = false)
    (hop : op.opensSocket = false) : (cl.step op).is_running = false := by
  cases op with
  | InitializeLog socketRet =>
    have hneg : socketRet < 0 := by simpa [ClientOp.opensSocket] using hop
    simp [Client.step, UdpLog.InitializeLog, hneg, h]
  | SetLogLevel level => exact h
  | Log dt level prog func line message =>
    exact (Log_is_running cl dt level prog func line message).trans h
  | ExitLog =>
    simp only [Client.step, UdpLog.ExitLog]
    split <;> rfl

lemma client_run_stays_stopped (ops : List ClientOp) (cl : Client)
    (h : cl.is_running = false) (hops : ∀ op ∈ ops, op.opensSocket = false) :
    (cl.run ops).is_running = false := by
  induction ops generalizing cl with
  | nil => exact h
  | cons op ops ih =>
    exact ih (cl.step op) (client_step_stays_stopped cl op h (hops op (by simp)))
      (fun o ho => hops o (by simp [ho]))

/-- C9 as stated fails for the client: after `InitializeLog` and `ExitLog` the run flag is
false, and a further `InitializeLog` (whose `socket` call succeeds) sets it back to
true. -/
theorem InitializeLog_restarts_after_ExitLog :
    (Client.start.run [ClientOp.InitializeLog 3, ClientOp.ExitLog]).is_running = false
    ∧ (Client.start.run
        [ClientOp.InitializeLog 3, ClientOp.ExitLog, ClientOp.InitializeLog 4]).is_running
      = true := by
  decide

/-- C9, amended: in the server, once the run flag is false, no sequence of SIGINT
deliveries and menu selections sets it back to true; in the client, once it is false, no
sequence of calls of `SetLogLevel`, `Log`, `ExitLog` and of `InitializeLog` calls whose
`socket` fails sets it back to true, while an `InitializeLog` whose `socket` succeeds
sets it to true. -/
theorem run_flag_stays_false (srv : Server) (sops : List ServerOp) (cl : Client)
    (cops : List ClientOp) (hs : srv.is_running = false) (hc : cl.is_running = false)
    (hops : ∀ op ∈ cops, op.opensSocket = false) :
    (srv.run sops).is_running = false
    ∧ (cl.run cops).is_running = false
    ∧ ∀ socketRet : Int, 0 ≤ socketRet →
        ((cl.run cops).step (ClientOp.InitializeLog socketRet)).is_running = true := by
  refine ⟨server_run_stays_stopped sops srv hs, client_run_stays_stopped cops cl hc hops, ?_⟩
  intro socketRet hsock
  have : ¬ socketRet < 0 := by omega
  simp [Client.step, UdpLog.InitializeLog, this]

/-- C9 amended, at a server stopped by menu selection 0 and a client stopped by
`ExitLog`. -/
theorem run_flag_stays_false_witness :
    ((Server.start.run [ServerOp.menu 0 0]).is_running = false
      ∧ (Client.start.run [ClientOp.InitializeLog 3, ClientOp.ExitLog]).is_running = false
      ∧ ∀ op ∈ [ClientOp.SetLogLevel WARNING,
            ClientOp.Log ctime_epoch ERROR (ascii "app.c") (ascii "main") 42 (ascii "late"),
            ClientOp.ExitLog, ClientOp.InitializeLog (-1)],
          op.opensSocket = false)
    ∧ ((Server.start.run [ServerOp.menu 0 0]).run
        [ServerOp.sigint, ServerOp.menu 1 2, ServerOp.menu 2 0, ServerOp.menu 7 0,
          ServerOp.menu 0 0]).is_running = false
    ∧ ((Client.start.run [ClientOp.InitializeLog 3, ClientOp.ExitLog]).run
        [ClientOp.SetLogLevel WARNING,
          ClientOp.Log ctime_epoch ERROR (ascii "app.c") (ascii "main") 42 (ascii "late"),
          ClientOp.ExitLog, ClientOp.InitializeLog (-1)]).is_running = false
    ∧ ∀ socketRet : Int, 0 ≤ socketRet →
        (((Client.start.run [ClientOp.InitializeLog 3, ClientOp.ExitLog]).run
          [ClientOp.SetLogLevel WARNING,
            ClientOp.Log ctime_epoch ERROR (ascii "app.c") (ascii "main") 42 (ascii "late"),
            ClientOp.ExitLog, ClientOp.InitializeLog (-1)]).step
          (ClientOp.InitializeLog socketRet)).is_running = true :=
  ⟨⟨by decide, by decide, by decide⟩,
    run_flag_stays_false (Server.start.run [ServerOp.menu 0 0])
      [ServerOp.sigint, ServerOp.menu 1 2, ServerOp.menu 2 0, ServerOp.menu 7 0,
        ServerOp.menu 0 0]
      (Client.start.run [ClientOp.InitializeLog 3, ClientOp.ExitLog])
      [ClientOp.SetLogLevel WARNING,
        ClientOp.Log ctime_epoch ERROR (ascii "app.c") (ascii "main") 42 (ascii "late"),
        ClientOp.ExitLog, ClientOp.InitializeLog (-1)]
      (by decide) (by decide) (by decide)⟩

/-! ## The lock around the threshold -/

/-- C10 fails on the code: a call of `Log` by a thread that does not hold `log_mutex`
reads `current_log_level` first, with the lock free (Logger.cpp:107), and reads it
nowhere else; the lock is taken only afterwards (Logger.cpp:122) and is held during
every `sendto` of the call. The writers, `SetLogLevel` and the control listener on a
set-level command, do store the threshold while holding `log_mutex`. -/
theorem Log_reads_threshold_without_lock (st : Client) (dt : List Nat) (level : LOG_LEVEL)
    (prog func : List Nat) (line : Int) (message : List Nat) (l : LOG_LEVEL)
    (h : st.log_mutex = false) :
    (∃ rest : List Event,
      (Log st dt level prog func line message).trace
        = st.trace ++ Event.level_read false :: rest
      ∧ (∀ e ∈ rest, ∀ locked, e ≠ Event.level_read locked)
      ∧ ∀ e ∈ rest, ∀ buf len locked, e = Event.sendto buf len locked → locked = true)
    ∧ (SetLogLevel st l).trace = st.trace ++ [Event.level_write l true]
    ∧ (receiveFunction_step st
        (some (ascii "Set Log Level=" ++ [48 + l.toInt.toNat, 0]))).trace
      = st.trace ++ [Event.level_write l true] := by
  refine ⟨?_, rfl, by rw [receive_set]; rfl⟩
  by_cases hs : level.toInt ≥ st.current_log_level.toInt
  · refine ⟨_, by rw [Log_trace st dt level prog func line message hs, h], ?_, ?_⟩
    · intro e he locked
      simp only [List.mem_cons, List.mem_singleton, List.not_mem_nil, or_false] at he
      rcases he with rfl | rfl <;> simp
    · intro e he buf len locked heq
      simp only [List.mem_cons, List.mem_singleton, List.not_mem_nil, or_false] at he
      rcases he with rfl | rfl
      · simp at heq
      · simp only [Event.sendto.injEq] at heq
        exact heq.2.2.symm
  · refine ⟨[], ?_, by simp, by simp⟩
    simp [Log, Client.readLevel, hs, h]

/-- C10's failure at one call from the start state: the read of the threshold is done
with the lock free, the send with the lock held. -/
theorem Log_reads_threshold_without_lock_witness :
    Client.start.log_mutex = false
    ∧ (Log Client.start ctime_epoch ERROR (ascii "app.c") (ascii "main") 42
        (ascii "hello world")).trace
      = [Event.level_read false, Event.buf_store 57,
          Event.sendto
            (ascii "Thu Jan  1 00:00:00 1970\n ERROR app.c:main:42 hello world\x00") 58 true]
    ∧ ((∃ rest : List Event,
        (Log Client.start ctime_epoch ERROR (ascii "app.c") (ascii "main") 42
            (ascii "hello world")).trace
          = Client.start.trace ++ Event.level_read false :: rest
        ∧ (∀ e ∈ rest, ∀ locked, e ≠ Event.level_read locked)
        ∧ ∀ e ∈ rest, ∀ buf len locked, e = Event.sendto buf len locked → locked = true)
      ∧ (SetLogLevel Client.start CRITICAL).trace
          = Client.start.trace ++ [Event.level_write CRITICAL true]
      ∧ (receiveFunction_step Client.start
          (some (ascii "Set Log Level=" ++ [48 + CRITICAL.toInt.toNat, 0]))).trace
        = Client.start.trace ++ [Event.level_write CRITICAL true]) :=
  ⟨by decide, by decide,
    Log_reads_threshold_without_lock Client.start ctime_epoch ERROR (ascii "app.c")
      (ascii "main") 42 (ascii "hello world") CRITICAL (by decide)⟩

end UdpLog
